import Mathlib

/-!
Verification of the ncscli repository core: the retrying HTTP client
(`queryNcsSc`), single-instance termination (`terminateNcscInstance`),
batch launch (`launchNcscInstances`), the launch-poll loop inside
`doCmdLaunch` (all from ncscli/ncs.py), the batch terminate operation
(`terminateInstances`, ncs.py), and the per-host outcome classification of
`run_multiple_clients` (examples/blender/commandInstancesAsync.py).

The Python functions are shallowly embedded as pure Lean functions.
Network effects are modelled by oracles: a `server : Nat → HttpResp α`
gives, for each successive HTTP attempt, the status code and the
best-effort JSON-parse of the body (`none` plays the role of an
unparseable body, which the Python code replaces by the empty map `{}`).
`time.sleep` calls are modelled by an accumulated count of slept seconds.
-/

/-! ## Retrying HTTP client: ncs.py lines 32-52, `queryNcsSc` -/

/-- An HTTP response as seen by the client: its status code and the result
of attempting to parse its body as JSON (`none` = unparseable). -/
structure HttpResp (α : Type) where
  statusCode : Nat
  body : Option α
  deriving Repr, DecidableEq

/-- The value returned by `queryNcsSc`, i.e. the Python dict
`{'content': ..., 'statusCode': ...}` (content `none` models the empty map
`{}` substituted for an unparseable body), extended with two observers of
the run: `attempt`, the index of the attempt whose response was returned
(equal to the number of retries performed when the initial call starts at
attempt 0), and `slept`, the total seconds spent in `time.sleep`. -/
structure QueryOut (α : Type) where
  content : Option α
  statusCode : Nat
  attempt : Nat
  slept : Nat
  deriving Repr, DecidableEq

/-- ncs.py line 41 / 103 / 120 / 134: the error test
`(status_code < 200) or (status_code >= 300)`. -/
def non2xx (status : Nat) : Bool := status < 200 || status ≥ 300

/-- ncs.py lines 32-52. On a non-2xx status with `maxRetries > 0`, sleep
10 seconds and recurse with `maxRetries - 1` (the unconditional
`if True:` at line 44 is kept as in the source); otherwise parse the body
best-effort and return it with the status code.  The source's single test
`non2xx ∧ maxRetries > 0` is rendered as structural recursion on
`maxRetries`: with `maxRetries = 0` the retry branch of the source is
unreachable and both arms return the same record. -/
def queryNcsSc (server : Nat → HttpResp α) :
    Nat → Nat → Nat → QueryOut α
  | attempt, 0, slept =>
    let resp := server attempt
    ⟨resp.body, resp.statusCode, attempt, slept⟩
  | attempt, maxRetries + 1, slept =>
    let resp := server attempt
    if non2xx resp.statusCode then
      queryNcsSc server (attempt + 1) maxRetries (slept + 10)
    else
      ⟨resp.body, resp.statusCode, attempt, slept⟩

/-! ## Single-instance termination: ncs.py lines 129-141,
`terminateNcscInstance` -/

/-- ncs.py lines 129-141.  The HTTP DELETE is modelled by
`server : Nat → Nat` giving the status code of each successive attempt.
On a non-2xx status equal to 502 the Python code sleeps 10 s and calls
itself again with no retry counter at all; the Lean embedding adds a
`fuel` argument only to make that unbounded recursion total: `none` means
the Python code is still retrying after `fuel` attempts.  The result
`some (attempt, status)` records on which attempt the function returned
and the status code it returned. -/
def terminateNcscInstance (server : Nat → Nat) :
    Nat → Nat → Option (Nat × Nat)
  | _, 0 => none
  | attempt, fuel + 1 =>
    let status := server attempt
    if non2xx status then
      if status = 502 then terminateNcscInstance server (attempt + 1) fuel
      else some (attempt, status)
    else some (attempt, status)

/-! ## Concrete servers used as test inputs -/

/-- A server that answers 500, 500, then 200 with a parseable body. -/
def srv500x2then200 : Nat → HttpResp Nat :=
  fun n => if n ≥ 2 then ⟨200, some 7⟩ else ⟨500, none⟩

/-- A server that answers 502, 502, then 200. -/
def srv502x2then200 : Nat → Nat :=
  fun n => if n ≥ 2 then 200 else 502

/-- C3: the recursion equation of `queryNcsSc` on a non-2xx response with
retries remaining. -/
theorem queryNcsSc_retry_eq {α : Type} (server : Nat → HttpResp α)
    (attempt m slept : Nat)
    (h : non2xx (server attempt).statusCode = true) :
    queryNcsSc server attempt (m + 1) slept =
      queryNcsSc server (attempt + 1) m (slept + 10) := by
  simp [queryNcsSc, h]

/-- C3: with retries exhausted, `queryNcsSc` returns the (error) status
code together with the best-effort-parsed body. -/
theorem queryNcsSc_exhausted_eq {α : Type} (server : Nat → HttpResp α)
    (attempt slept : Nat) :
    queryNcsSc server attempt 0 slept =
      ⟨(server attempt).body, (server attempt).statusCode, attempt, slept⟩ :=
  rfl

/-- The attempt index returned by `queryNcsSc` exceeds the starting
attempt index by at most `maxRetries`: the client performs at most
`maxRetries` retries. -/
theorem queryNcsSc_attempt_le {α : Type} (server : Nat → HttpResp α)
    (maxRetries : Nat) :
    ∀ attempt slept,
      (queryNcsSc server attempt maxRetries slept).attempt ≤
        attempt + maxRetries := by
  induction maxRetries with
  | zero =>
    intro attempt slept
    simp [queryNcsSc]
  | succ m ih =>
    intro attempt slept
    by_cases h : non2xx (server attempt).statusCode = true
    · rw [queryNcsSc_retry_eq server attempt m slept h]
      exact le_trans (ih (attempt + 1) (slept + 10)) (by omega)
    · simp [queryNcsSc, h]

/-- C3.  The retrying HTTP client `queryNcsSc`: (1) on a non-2xx status
with `maxRetries > 0` it sleeps a fixed 10 seconds and retries with
`maxRetries - 1`; (2) with retries exhausted it returns the error status
code together with the best-effort-parsed body (`none`, standing for the
empty map, when the body is unparseable); (3) against a server answering
500, 500, 200, a call with `maxRetries = 2` returns the 200 result after
exactly 2 retries (final attempt index 2) having slept 2 × 10 seconds. -/
theorem C3_queryNcsSc_retry :
    (∀ (α : Type) (server : Nat → HttpResp α) (attempt m slept : Nat),
      non2xx (server attempt).statusCode = true →
      queryNcsSc server attempt (m + 1) slept =
        queryNcsSc server (attempt + 1) m (slept + 10)) ∧
    (∀ (α : Type) (server : Nat → HttpResp α) (attempt slept : Nat),
      non2xx (server attempt).statusCode = true →
      queryNcsSc server attempt 0 slept =
        ⟨(server attempt).body, (server attempt).statusCode, attempt, slept⟩) ∧
    queryNcsSc srv500x2then200 0 2 0 = ⟨some 7, 200, 2, 20⟩ := by
  refine ⟨?_, ?_, ?_⟩
  · intro α server attempt m slept h
    exact queryNcsSc_retry_eq server attempt m slept h
  · intro α server attempt slept _
    exact queryNcsSc_exhausted_eq server attempt slept
  · rfl

/-- C3 witness: the retry equation applied at the concrete server
answering 500, 500, 200, discharging the non-2xx hypothesis there. -/
theorem C3_queryNcsSc_retry_witness :
    queryNcsSc srv500x2then200 0 2 0 = queryNcsSc srv500x2then200 1 1 10 :=
  C3_queryNcsSc_retry.1 Nat srv500x2then200 0 1 0 (by decide)

/-- C4 counterexample: the claim says a 502 during termination triggers
exactly one additional retry before giving up, so against the server
answering 502, 502, 200 the call starting at attempt 0 would have to
return the result of attempt 1 (status 502).  The code instead retries
again and returns the 200 of attempt 2. -/
theorem C4_counterexample :
    terminateNcscInstance srv502x2then200 0 10 = some (2, 200) ∧
    srv502x2then200 1 = 502 ∧
    ¬ (terminateNcscInstance srv502x2then200 0 10 =
        some (1, srv502x2then200 1)) := by
  decide

/-- C4 (amended).  During termination: (1) every 502 response triggers
another unconditional retry of the delete request — the retrying is
unbounded, so a server that always answers 502 is retried forever (the
embedding returns `none` for every fuel bound); (2) every response other
than 502 — 2xx or not — makes the function return that status code
immediately. -/
theorem C4_terminate_502_loop :
    (∀ (server : Nat → Nat) (attempt fuel : Nat),
      server attempt = 502 →
      terminateNcscInstance server attempt (fuel + 1) =
        terminateNcscInstance server (attempt + 1) fuel) ∧
    (∀ (server : Nat → Nat) (attempt fuel : Nat),
      server attempt ≠ 502 →
      terminateNcscInstance server attempt (fuel + 1) =
        some (attempt, server attempt)) ∧
    (∀ fuel attempt, terminateNcscInstance (fun _ => 502) attempt fuel = none) := by
  refine ⟨?_, ?_, ?_⟩
  · intro server attempt fuel h
    simp only [terminateNcscInstance, h]
    norm_num [non2xx]
  · intro server attempt fuel h
    by_cases hn : non2xx (server attempt) = true
    · simp [terminateNcscInstance, hn, h]
    · simp [terminateNcscInstance, hn]
  · intro fuel
    induction fuel with
    | zero => intro attempt; rfl
    | succ n ih =>
      intro attempt
      simp only [terminateNcscInstance]
      norm_num [non2xx]
      exact ih (attempt + 1)

/-- C4 witness: the amended theorem applied at the server answering
502, 502, 200, discharging the hypotheses at attempts 0 and 2. -/
theorem C4_terminate_502_loop_witness :
    terminateNcscInstance srv502x2then200 0 10 =
      terminateNcscInstance srv502x2then200 1 9 ∧
    terminateNcscInstance srv502x2then200 2 8 = some (2, 200) :=
  ⟨C4_terminate_502_loop.1 srv502x2then200 0 9 (by decide),
   C4_terminate_502_loop.2.1 srv502x2then200 2 7 (by decide)⟩

/-! ## Batch termination: ncs.py lines 346-354, `terminateInstances` -/

/-- A Python value as far as the guard of `terminateInstances` can tell:
either a string or anything else (`isinstance(x, str)` is false). -/
inductive PyVal
  | str (s : String)
  | nonStr
  deriving Repr, DecidableEq

/-- `isinstance(x, str)`. -/
def isStrVal : PyVal → Bool
  | .str _ => true
  | .nonStr => false

/-- ncs.py line 351: the fixed worker-pool size of the batch terminate. -/
def nWorkersTerminate : Nat := 2

/-- ncs.py lines 346-354.  Guard (line 350): the list is truthy, has
positive length, and its first element is a string; only then is
`terminateOne` dispatched over the list by `executor.map` (a thread pool
of `nWorkersTerminate` workers, which applies the function exactly once
to each list element, in list order, whatever the pool size).  The value
returned here is the list of arguments on which the delete operation is
invoked. -/
def terminateInstances (instanceIds : List PyVal) : List PyVal :=
  if (!instanceIds.isEmpty) &&
      decide (0 < instanceIds.length) &&
      (match instanceIds.head? with
        | some v => isStrVal v
        | none => false) then
    instanceIds.map (fun iid => iid)
  else
    []

/-- C8.  For every non-empty list of (string) instance ids, the batch
terminate dispatches the delete operation on exactly the ids of the list,
in order; hence each id is deleted exactly as many times as it occurs in
the list — exactly once per id when the ids are distinct — no id skipped
and none deleted twice.  (The worker pool of `nWorkersTerminate = 2`
affects only the scheduling of `executor.map`, never which arguments the
mapped function is applied to.) -/
theorem C8_terminate_once_per_id (ids : List String) (h : ids ≠ []) :
    terminateInstances (ids.map PyVal.str) = ids.map PyVal.str ∧
    ∀ iid : String,
      (terminateInstances (ids.map PyVal.str)).count (PyVal.str iid) =
        ids.count iid := by
  have hguard : terminateInstances (ids.map PyVal.str) = ids.map PyVal.str := by
    match ids, h with
    | x :: xs, _ =>
      simp [terminateInstances, isStrVal]
  refine ⟨hguard, fun iid => ?_⟩
  rw [hguard]
  exact List.count_map_of_injective ids PyVal.str
    (fun a b hab => by injection hab) iid

/-- C8 witness: the theorem applied to a concrete list of 10 ids (larger
than the worker pool of 2), with the non-emptiness hypothesis discharged
there. -/
theorem C8_terminate_once_per_id_witness :
    terminateInstances
        (["i0", "i1", "i2", "i3", "i4", "i5", "i6", "i7", "i8", "i9"].map
          PyVal.str) =
      (["i0", "i1", "i2", "i3", "i4", "i5", "i6", "i7", "i8", "i9"].map
          PyVal.str) ∧
    (terminateInstances
        (["i0", "i1", "i2", "i3", "i4", "i5", "i6", "i7", "i8", "i9"].map
          PyVal.str)).count (PyVal.str "i4") = 1 := by
  have h := C8_terminate_once_per_id
    ["i0", "i1", "i2", "i3", "i4", "i5", "i6", "i7", "i8", "i9"]
    (by decide)
  exact ⟨h.1, by rw [h.2 "i4"]; decide⟩

/-- C9.  The guard of `terminateInstances`: an empty id list, or a list
whose first element is not a string, dispatches no delete at all (and
raises nothing — the function just returns); the guard inspects only the
first element, so a list headed by a string is dispatched in full, later
non-string elements included. -/
theorem C9_terminate_guard :
    terminateInstances [] = [] ∧
    (∀ l : List PyVal, terminateInstances (PyVal.nonStr :: l) = []) ∧
    (∀ (s : String) (l : List PyVal),
      terminateInstances (PyVal.str s :: l) = PyVal.str s :: l) := by
  refine ⟨rfl, fun l => ?_, fun s l => ?_⟩
  · simp [terminateInstances, isStrVal]
  · simp [terminateInstances, isStrVal]

/-! ## Per-host outcome classification:
examples/blender/commandInstancesAsync.py lines 87-123,
`run_multiple_clients` -/

/-- The raw result of one per-host task, as `asyncio.gather` with
`return_exceptions=True` delivers it: an `asyncio.TimeoutError` (the task
exceeded its `wait_for` bound), an integer remote exit code, or anything
else (another exception type, or a `None` return code). -/
inductive TaskResult
  | timeoutErr
  | exit (code : Int)
  | other
  deriving Repr, DecidableEq

/-- The four counters of `run_multiple_clients`. -/
structure RunTally where
  nGood : Nat
  nFailed : Nat
  nTimedOut : Nat
  nOther : Nat
  deriving Repr, DecidableEq

/-- commandInstancesAsync.py lines 105-120: one turn of the
classification loop.  `isinstance(result, asyncio.TimeoutError)` is
checked first, then `isinstance(result, int)` with Python truthiness
(`if result:`) separating non-zero from zero exit codes, and everything
else is `Other`. -/
def classifyTallyStep (t : RunTally) (r : TaskResult) : RunTally :=
  match r with
  | .timeoutErr => { t with nTimedOut := t.nTimedOut + 1 }
  | .exit code =>
    if code ≠ 0 then { t with nFailed := t.nFailed + 1 }
    else { t with nGood := t.nGood + 1 }
  | .other => { t with nOther := t.nOther + 1 }

/-- commandInstancesAsync.py lines 87-123.  One task per instance is
gathered; `outcome` gives each instance's raw result.  The counters start
at 0 (lines 95-98) and the loop at lines 100-120 folds
`classifyTallyStep` over the results in order. -/
def run_multiple_clients (instances : List String)
    (outcome : String → TaskResult) : RunTally :=
  (instances.map outcome).foldl classifyTallyStep ⟨0, 0, 0, 0⟩

/-- Counting predicate: a result is a zero exit code. -/
def isGoodResult : TaskResult → Bool
  | .exit code => code == 0
  | _ => false

/-- Counting predicate: a result is a non-zero exit code. -/
def isFailedResult : TaskResult → Bool
  | .exit code => !(code == 0)
  | _ => false

/-- Counting predicate: a result is a task timeout. -/
def isTimedOutResult : TaskResult → Bool
  | .timeoutErr => true
  | _ => false

/-- Counting predicate: a result is of any other kind. -/
def isOtherResult : TaskResult → Bool
  | .other => true
  | _ => false

/-- Folding `classifyTallyStep` over a result list adds to each starting
counter the number of results satisfying that counter's predicate. -/
theorem classify_foldl_counts (rs : List TaskResult) :
    ∀ t : RunTally,
      (rs.foldl classifyTallyStep t).nGood = t.nGood + rs.countP isGoodResult ∧
      (rs.foldl classifyTallyStep t).nFailed =
        t.nFailed + rs.countP isFailedResult ∧
      (rs.foldl classifyTallyStep t).nTimedOut =
        t.nTimedOut + rs.countP isTimedOutResult ∧
      (rs.foldl classifyTallyStep t).nOther =
        t.nOther + rs.countP isOtherResult := by
  induction rs with
  | nil => intro t; simp
  | cons r rs ih =>
    intro t
    obtain ⟨h1, h2, h3, h4⟩ := ih (classifyTallyStep t r)
    refine ⟨?_, ?_, ?_, ?_⟩ <;>
      simp only [List.foldl_cons, List.countP_cons, h1, h2, h3, h4] <;>
      cases r with
      | timeoutErr =>
        simp [classifyTallyStep, isGoodResult, isFailedResult,
          isTimedOutResult, isOtherResult] <;> omega
      | exit code =>
        by_cases hc : code = 0 <;>
          simp [classifyTallyStep, isGoodResult, isFailedResult,
            isTimedOutResult, isOtherResult, hc] <;>
          omega
      | other =>
        simp [classifyTallyStep, isGoodResult, isFailedResult,
          isTimedOutResult, isOtherResult] <;> omega

/-- The concrete 5-host outcome table of the C7 example: exit codes
0, 0, 1, 0 and one timeout. -/
def outcomeFiveHosts : String → TaskResult :=
  fun iid =>
    if iid = "h3" then .exit 1
    else if iid = "h5" then .timeoutErr
    else .exit 0

/-- C7.  The dispatcher's classification: `nGood` counts exactly the
integer results equal to 0, `nFailed` the non-zero integer results,
`nTimedOut` the timeouts, `nOther` everything else; and for 5 hosts whose
raw results are exit codes 0, 0, 1, 0 and a timeout the tally is
`nGood = 3, nFailed = 1, nTimedOut = 1, nOther = 0`. -/
theorem C7_outcome_classification :
    (∀ (instances : List String) (outcome : String → TaskResult),
      (run_multiple_clients instances outcome).nGood =
        (instances.map outcome).countP isGoodResult ∧
      (run_multiple_clients instances outcome).nFailed =
        (instances.map outcome).countP isFailedResult ∧
      (run_multiple_clients instances outcome).nTimedOut =
        (instances.map outcome).countP isTimedOutResult ∧
      (run_multiple_clients instances outcome).nOther =
        (instances.map outcome).countP isOtherResult) ∧
    run_multiple_clients ["h1", "h2", "h3", "h4", "h5"] outcomeFiveHosts =
      ⟨3, 1, 1, 0⟩ := by
  constructor
  · intro instances outcome
    have h := classify_foldl_counts (instances.map outcome) ⟨0, 0, 0, 0⟩
    simpa [run_multiple_clients] using h
  · decide

/-- C10.  Every raw result lands in exactly one bucket, so the four
counters always sum to the number of instances in the batch. -/
theorem C10_tally_total (instances : List String)
    (outcome : String → TaskResult) :
    (run_multiple_clients instances outcome).nGood +
      (run_multiple_clients instances outcome).nFailed +
      (run_multiple_clients instances outcome).nTimedOut +
      (run_multiple_clients instances outcome).nOther =
      instances.length := by
  obtain ⟨h1, h2, h3, h4⟩ :=
    classify_foldl_counts (instances.map outcome) ⟨0, 0, 0, 0⟩
  simp only [run_multiple_clients, h1, h2, h3, h4]
  have hlen : (instances.map outcome).length = instances.length :=
    List.length_map instances outcome
  rw [← hlen]
  simp only [Nat.zero_add]
  have := List.length_eq_countP_add_countP isGoodResult (instances.map outcome)
  induction instances.map outcome with
  | nil => simp
  | cons r rs ihr =>
    simp only [List.countP_cons, List.length_cons]
    cases r with
    | timeoutErr =>
      simp [isGoodResult, isFailedResult, isTimedOutResult, isOtherResult]
      omega
    | exit code =>
      by_cases hc : code = 0 <;>
        simp [isGoodResult, isFailedResult, isTimedOutResult, isOtherResult,
          hc] <;> omega
    | other =>
      simp [isGoodResult, isFailedResult, isTimedOutResult, isOtherResult]
      omega

/-! ## Launch: ncs.py lines 61-127, `launchNcscInstances`, and the
command layer around it, ncs.py lines 144-262, `doCmdLaunch` -/

/-- The `jsonFilter` argument as the code distinguishes it (ncs.py lines
84-95): absent (or a parsed-but-falsy value, which is skipped), a valid
JSON object (merged into the request), invalid JSON (`json.loads`
raises), or valid JSON that is not an object (`TypeError` raised). -/
inductive FilterArg
  | noFilter
  | validDict
  | invalidJson
  | nonDict
  deriving Repr, DecidableEq

/-- What `launchNcscInstances` hands back to `doCmdLaunch`: the empty map
`{}` (line 67), a `{'serverError': code, 'reqId': ...}` map (lines 118 and
123), or a list of instance records, here abstracted to their ids (line
126 `resp2['content']['my']`, or line 127 `resp.json()`). -/
inductive LaunchOutcome
  | emptyMap
  | serverError (code : Nat)
  | instances (iids : List String)
  deriving Repr, DecidableEq

/-- Result of a `launchNcscInstances` run, with two observers: whether
the launch POST was issued at all, and the total seconds slept. -/
structure LaunchRes where
  outcome : LaunchOutcome
  posted : Bool
  slept : Nat
  deriving Repr, DecidableEq

/-- The environment a `launchNcscInstances` run interacts with: the
application versions the server reports, the filter argument, the status
of the launch POST and the parse of its body (`none` = `resp.json()`
raises), and the recovery query: whether `queryNcsSc` raises at the
network level, and otherwise the recovery server's responses, whose
parsed body is `some my` when the content dict has a `'my'` entry. -/
structure LaunchEnv where
  appVersions : List Nat
  filterArg : FilterArg
  postStatus : Nat
  postBody : Option (List String)
  recoveryExc : Bool
  recoveryServer : Nat → HttpResp (Option (List String))

/-- ncs.py lines 61-127.  Fetch application versions; if none, log and
return `{}` (lines 64-67) without posting.  Parse and merge the filter,
raising on invalid input (lines 84-95; `Except.error` models a raised
exception).  Post the launch request; on a non-2xx status sleep 30 s and
query the instances tagged with this run's job id via `queryNcsSc` with
`maxRetries = 20` (lines 103-126): if that query raises, return
`{'serverError': <original POST status>}`; if it returns a non-2xx
status, return `{'serverError': <that last status>}`; otherwise return
its content's `'my'` list (a missing `'my'` key raises a `KeyError`
outside the `try`, lines 119-126).  On a 2xx POST return the parsed
response body (line 127). -/
def launchNcscInstances (env : LaunchEnv) : Except Unit LaunchRes :=
  if env.appVersions.isEmpty then .ok ⟨.emptyMap, false, 0⟩
  else
    match env.filterArg with
    | .invalidJson => .error ()
    | .nonDict => .error ()
    | _ =>
      if non2xx env.postStatus then
        if env.recoveryExc then .ok ⟨.serverError env.postStatus, true, 30⟩
        else
          let resp2 := queryNcsSc env.recoveryServer 0 20 0
          if non2xx resp2.statusCode then
            .ok ⟨.serverError resp2.statusCode, true, 30 + resp2.slept⟩
          else
            match resp2.content with
            | some (some my) => .ok ⟨.instances my, true, 30 + resp2.slept⟩
            | _ => .error ()
      else
        match env.postBody with
        | some infos => .ok ⟨.instances infos, true, 0⟩
        | none => .error ()

/-- The outcome of a launch run, when it did not raise. -/
def launchOutcomeOf : Except Unit LaunchRes → Option LaunchOutcome
  | .ok r => some r.outcome
  | .error _ => none

/-! ## The launch poll loop: ncs.py lines 176-225 (inside `doCmdLaunch`) -/

/-- The result of one `queryNcsSc('instances/<iid>', ...)` probe for one
instance id, as the poll loop distinguishes it: the query raised (line
192), the content has no `'state'` key (line 196), or it has a state
string. -/
inductive QResult
  | exc
  | noState
  | withState (s : String)
  deriving Repr, DecidableEq

/-- Python `set.add`: insert if absent (membership is what matters; the
insertion position is immaterial). -/
def setInsert (s : List String) (x : String) : List String :=
  if x ∈ s then s else s ++ [x]

/-- Python dict assignment `d[k] = v`: replace the value at an existing
key, else append the binding. -/
def dictInsert (d : List (String × String)) (k v : String) :
    List (String × String) :=
  if d.any (fun p => p.1 == k) then
    d.map (fun p => if p.1 == k then (k, v) else p)
  else d ++ [(k, v)]

/-- The mutable state of the poll loop (ncs.py lines 177-182):
`startedSet`, `failedSet`, and the dict `startedInstances` mapping each
started id to its details record — the record is abstracted here to its
`'state'` field, the only part the loop itself reads or writes. -/
structure PollState where
  startedSet : List String
  failedSet : List String
  startedInstances : List (String × String)
  deriving Repr, DecidableEq

/-- The state the loop starts from (ncs.py lines 177, 181, 182). -/
def initPollState : PollState := ⟨[], [], []⟩

/-- ncs.py lines 187-211: the body of the per-id loop within one poll
cycle.  An id already in `startedSet` is skipped; a probe that raises or
has no `'state'` contributes nothing (the id is retried next cycle); a
`'started'` state records the id in `startedSet` and `startedInstances`;
a `'failed'` state records it in `failedSet`; any state other than
`'started'` raises the cycle's `starting` flag (second component). -/
def pollOne (qry : String → QResult) (acc : PollState × Bool)
    (iid : String) : PollState × Bool :=
  let st := acc.1
  let starting := acc.2
  if iid ∈ st.startedSet then acc
  else
    match qry iid with
    | .exc => acc
    | .noState => acc
    | .withState s =>
      let st1 :=
        if s = "started" then
          { st with
            startedSet := setInsert st.startedSet iid,
            startedInstances := dictInsert st.startedInstances iid s }
        else st
      let st2 :=
        if s = "failed" then
          { st1 with failedSet := setInsert st1.failedSet iid }
        else st1
      (st2, starting || !(s == "started"))

/-- ncs.py lines 185-211: one full poll cycle over all ids, starting with
`starting = False`. -/
def pollCycle (qry : String → QResult) (iids : List String)
    (st : PollState) : PollState × Bool :=
  iids.foldl (pollOne qry) (st, false)

/-- Why the poll loop ended: `allStarted` is the `if not starting: break`
at line 214 (no probed id reported a state other than `'started'` this
cycle), `deadline` the `if time.time() > deadline: break` at line 216,
`fuelOut` the embedding's fuel running out (the Python loop still
running). -/
inductive ExitReason
  | allStarted
  | deadline
  | fuelOut
  deriving Repr, DecidableEq

/-- A finished poll-loop run: the final state, why the loop ended, and
how many cycles ran. -/
structure LoopRes where
  st : PollState
  reason : ExitReason
  nCycles : Nat
  deriving Repr, DecidableEq

/-- ncs.py lines 184-219: the poll loop.  `oracle c iid` is the probe
result for id `iid` during cycle `c`, and `timeUp c` models
`time.time() > deadline` as evaluated after cycle `c` (the inter-cycle
`time.sleep(5)` is what advances the clock).  `fuel` bounds the embedding
only; the Python loop has no such bound. -/
def pollLoop (oracle : Nat → String → QResult) (timeUp : Nat → Bool)
    (iids : List String) : Nat → Nat → PollState → LoopRes
  | 0, _, st => ⟨st, .fuelOut, 0⟩
  | fuel + 1, cycle, st =>
    let p := pollCycle (oracle cycle) iids st
    if !p.2 then ⟨p.1, .allStarted, 1⟩
    else if timeUp cycle then ⟨p.1, .deadline, 1⟩
    else
      let r := pollLoop oracle timeUp iids fuel (cycle + 1) p.1
      ⟨r.st, r.reason, r.nCycles + 1⟩

/-! ## The launch command layer: ncs.py lines 144-262, `doCmdLaunch` -/

/-- Everything a `doCmdLaunch` run interacts with: the launch
environment, the poll oracles, and the fuel for the loop embedding. -/
structure CmdLaunchEnv where
  launchEnv : LaunchEnv
  oracle : Nat → String → QResult
  timeUp : Nat → Bool
  fuel : Nat

/-- ncs.py lines 144-262, reduced to its exit code.  A raised exception
is caught and turned into exit code 13 (lines 161-164); a returned map
containing `'serverError'` makes the function return that code (lines
158-160); otherwise the instance ids are collected (an empty map yields
none), the poll loop runs with its 600-second deadline, details are
printed, and the function returns 0 (line 262). -/
def doCmdLaunch (env : CmdLaunchEnv) : Nat :=
  match launchNcscInstances env.launchEnv with
  | .error _ => 13
  | .ok r =>
    match r.outcome with
    | .serverError c => c
    | .emptyMap =>
      let _ := pollLoop env.oracle env.timeUp [] env.fuel 0 initPollState
      0
    | .instances infos =>
      let _ := pollLoop env.oracle env.timeUp infos env.fuel 0 initPollState
      0

/-- A launch environment in which the server reports no application
versions at all; the remaining fields are arbitrary benign values. -/
def envEmptyVersions : CmdLaunchEnv where
  launchEnv :=
    { appVersions := []
      filterArg := .noFilter
      postStatus := 200
      postBody := some []
      recoveryExc := false
      recoveryServer := fun _ => ⟨200, some (some [])⟩ }
  oracle := fun _ _ => .withState "started"
  timeUp := fun _ => true
  fuel := 3

/-- C5 counterexample: with no application versions returned, the claim
requires a fatal error at the command layer, i.e. a non-zero exit code
from `doCmdLaunch`; the code instead returns `{}` from
`launchNcscInstances`, which `doCmdLaunch` treats as zero instances and
turns into the success exit code 0. -/
theorem C5_counterexample :
    ¬ (envEmptyVersions.launchEnv.appVersions = [] →
        doCmdLaunch envEmptyVersions ≠ 0) := by
  decide

/-- C5 (amended).  When the versions query returns no versions,
`launchNcscInstances` fails fast — it returns the empty map without
posting any launch request and without sleeping — but the error does not
propagate as fatal: `doCmdLaunch` treats the empty map as zero launched
instances and exits with the success code 0. -/
theorem C5_empty_versions_not_fatal (env : CmdLaunchEnv)
    (h : env.launchEnv.appVersions = []) :
    launchNcscInstances env.launchEnv = .ok ⟨.emptyMap, false, 0⟩ ∧
    doCmdLaunch env = 0 := by
  have h1 : launchNcscInstances env.launchEnv = .ok ⟨.emptyMap, false, 0⟩ := by
    simp [launchNcscInstances, h]
  exact ⟨h1, by simp [doCmdLaunch, h1]⟩

/-- C5 witness: the amended theorem applied at the concrete environment
with an empty version list. -/
theorem C5_empty_versions_not_fatal_witness :
    launchNcscInstances envEmptyVersions.launchEnv =
      .ok ⟨.emptyMap, false, 0⟩ ∧
    doCmdLaunch envEmptyVersions = 0 :=
  C5_empty_versions_not_fatal envEmptyVersions rfl

/-- A launch environment in which the POST fails with 500 and the
recovery query persistently answers 404. -/
def envRecovery404 : LaunchEnv where
  appVersions := [1623]
  filterArg := .noFilter
  postStatus := 500
  postBody := none
  recoveryExc := false
  recoveryServer := fun _ => ⟨404, none⟩

/-- C6 counterexample: the claim requires the original POST error status
(500) whenever the recovery query fails; but when the recovery query
returns a non-2xx status (404, after its 20 retries are exhausted), the
code returns that last status, 404, not the POST's 500. -/
theorem C6_counterexample :
    envRecovery404.postStatus = 500 ∧
    launchOutcomeOf (launchNcscInstances envRecovery404) =
      some (.serverError 404) ∧
    launchOutcomeOf (launchNcscInstances envRecovery404) ≠
      some (.serverError envRecovery404.postStatus) := by
  decide

/-- C6 (amended).  On a non-2xx launch POST the function waits 30 s and
queries the control plane for the run's job id with at most 20 retries;
if that recovery query raises, the original POST status is returned; if
it returns a non-2xx status, that last error status (not the POST's) is
returned; if it succeeds, its `'my'` instance list is returned even when
empty. -/
theorem C6_launch_recovery (env : LaunchEnv)
    (hv : env.appVersions ≠ [])
    (hf : env.filterArg = .noFilter ∨ env.filterArg = .validDict)
    (hp : non2xx env.postStatus = true) :
    (env.recoveryExc = true →
      launchNcscInstances env = .ok ⟨.serverError env.postStatus, true, 30⟩) ∧
    (queryNcsSc env.recoveryServer 0 20 0).attempt ≤ 20 ∧
    (env.recoveryExc = false →
      non2xx (queryNcsSc env.recoveryServer 0 20 0).statusCode = true →
      launchNcscInstances env =
        .ok ⟨.serverError (queryNcsSc env.recoveryServer 0 20 0).statusCode,
          true, 30 + (queryNcsSc env.recoveryServer 0 20 0).slept⟩) ∧
    (env.recoveryExc = false →
      non2xx (queryNcsSc env.recoveryServer 0 20 0).statusCode = false →
      ∀ my : List String,
        (queryNcsSc env.recoveryServer 0 20 0).content = some (some my) →
        launchNcscInstances env =
          .ok ⟨.instances my, true,
            30 + (queryNcsSc env.recoveryServer 0 20 0).slept⟩) := by
  have hne : env.appVersions.isEmpty = false := by
    cases hv' : env.appVersions with
    | nil => exact absurd hv' hv
    | cons a l => rfl
  refine ⟨?_, ?_, ?_, ?_⟩
  · intro hre
    rcases hf with hf | hf <;> simp [launchNcscInstances, hne, hf, hp, hre]
  · simpa using queryNcsSc_attempt_le env.recoveryServer 20 0 0
  · intro hre hst
    rcases hf with hf | hf <;>
      simp [launchNcscInstances, hne, hf, hp, hre, hst]
  · intro hre hst my hmy
    rcases hf with hf | hf <;>
      simp [launchNcscInstances, hne, hf, hp, hre, hst, hmy]

/-- C6 witness: the amended theorem applied at the environment whose POST
fails with 500 and whose recovery query persistently answers 404,
discharging every hypothesis there; the recovery query exhausts its 20
retries (200 s slept inside it, plus the 30 s launch-recovery wait). -/
theorem C6_launch_recovery_witness :
    launchNcscInstances envRecovery404 = .ok ⟨.serverError 404, true, 230⟩ :=
  ((C6_launch_recovery envRecovery404 (by decide) (Or.inl rfl)
    (by decide)).2.2.1 rfl (by decide)).trans rfl

/-! ## Poll-loop lemmas -/

/-- A probe result that yields no usable state: the query raised, or the
response content has no `'state'` key.  Such an id contributes nothing to
the cycle and is retried on the next one. -/
def qErr : QResult → Bool
  | .exc => true
  | .noState => true
  | .withState _ => false

/-- Membership in a Python-set insertion. -/
theorem mem_setInsert (s : List String) (x y : String) :
    y ∈ setInsert s x ↔ y ∈ s ∨ y = x := by
  by_cases h : x ∈ s
  · simp only [setInsert, if_pos h]
    constructor
    · exact fun hy => Or.inl hy
    · rintro (hy | rfl)
      · exact hy
      · exact h
  · simp [setInsert, h]

/-- The key list of a Python-dict assignment: unchanged when the key was
present, extended by the key when it was not. -/
theorem map_fst_dictInsert (d : List (String × String)) (k v : String) :
    (dictInsert d k v).map Prod.fst =
      if d.any (fun p => p.1 == k) then d.map Prod.fst
      else d.map Prod.fst ++ [k] := by
  by_cases h : d.any (fun p => p.1 == k) = true
  · simp only [dictInsert, if_pos h, List.map_map]
    apply List.map_congr_left
    intro p _
    by_cases hp : p.1 = k
    · simp [Function.comp_apply, hp]
    · simp [Function.comp_apply, hp]
  · simp [dictInsert, h]

/-- Membership in the key list of a Python-dict assignment. -/
theorem mem_keys_dictInsert (d : List (String × String)) (k v x : String) :
    x ∈ (dictInsert d k v).map Prod.fst ↔ x ∈ d.map Prod.fst ∨ x = k := by
  rw [map_fst_dictInsert]
  by_cases h : d.any (fun p => p.1 == k) = true
  · simp only [if_pos h]
    constructor
    · exact Or.inl
    · rintro (hx | rfl)
      · exact hx
      · rcases List.any_eq_true.mp h with ⟨p, hp, hpk⟩
        exact List.mem_map.mpr ⟨p, hp, eq_of_beq hpk⟩
  · simp [h]

/-- Dict assignment keeps the key list duplicate-free. -/
theorem nodup_keys_dictInsert (d : List (String × String)) (k v : String)
    (h : (d.map Prod.fst).Nodup) :
    ((dictInsert d k v).map Prod.fst).Nodup := by
  rw [map_fst_dictInsert]
  by_cases ha : d.any (fun p => p.1 == k) = true
  · simpa [ha] using h
  · simp only [if_neg ha]
    have hk : k ∉ d.map Prod.fst := by
      intro hmem
      rcases List.mem_map.mp hmem with ⟨p, hp, hpk⟩
      exact ha (List.any_eq_true.mpr ⟨p, hp, by simp [hpk]⟩)
    simp [List.nodup_append, h, hk]

/-- The invariant carried by the poll loop: the key set of the
`startedInstances` dict is exactly the started set, the started set stays
within the input ids, and the dict's keys are duplicate-free. -/
def pollInv (iids : List String) (st : PollState) : Prop :=
  (∀ x, x ∈ st.startedInstances.map Prod.fst ↔ x ∈ st.startedSet) ∧
  (∀ x ∈ st.startedSet, x ∈ iids) ∧
  (st.startedInstances.map Prod.fst).Nodup

/-- `pollOne` on an id already recorded as started: a no-op (ncs.py lines
188-189). -/
theorem pollOne_skip (qry : String → QResult) (st : PollState) (b : Bool)
    (iid : String) (hmem : iid ∈ st.startedSet) :
    pollOne qry (st, b) iid = (st, b) := by
  simp [pollOne, hmem]

/-- `pollOne` on a probe with no usable state: a no-op (ncs.py lines
190-198). -/
theorem pollOne_err (qry : String → QResult) (st : PollState) (b : Bool)
    (iid : String) (hmem : iid ∉ st.startedSet) (hq : qErr (qry iid) = true) :
    pollOne qry (st, b) iid = (st, b) := by
  cases hqq : qry iid with
  | exc => simp [pollOne, hmem, hqq]
  | noState => simp [pollOne, hmem, hqq]
  | withState s => rw [hqq] at hq; exact absurd hq (by simp [qErr])

/-- `pollOne` on a probe reporting `'started'`: records the id in the
started set and the `startedInstances` dict, leaves the cycle flag
untouched (ncs.py lines 201-203, 209-210). -/
theorem pollOne_started (qry : String → QResult) (st : PollState) (b : Bool)
    (iid : String) (hmem : iid ∉ st.startedSet)
    (hq : qry iid = .withState "started") :
    pollOne qry (st, b) iid =
      ({ st with
          startedSet := setInsert st.startedSet iid,
          startedInstances := dictInsert st.startedInstances iid "started" },
        b) := by
  simp [pollOne, hmem, hq]

/-- `pollOne` on a probe reporting `'failed'`: records the id in the
failed set and raises the cycle's `starting` flag (ncs.py lines 204-205,
209-210). -/
theorem pollOne_failed (qry : String → QResult) (st : PollState) (b : Bool)
    (iid : String) (hmem : iid ∉ st.startedSet)
    (hq : qry iid = .withState "failed") :
    pollOne qry (st, b) iid =
      ({ st with failedSet := setInsert st.failedSet iid }, true) := by
  simp [pollOne, hmem, hq]

/-- `pollOne` on a probe reporting any state other than `'started'` or
`'failed'`: only raises the cycle's `starting` flag (ncs.py lines
206-210). -/
theorem pollOne_otherState (qry : String → QResult) (st : PollState)
    (b : Bool) (iid : String) (s : String) (hmem : iid ∉ st.startedSet)
    (hq : qry iid = .withState s) (hs : s ≠ "started") (hf : s ≠ "failed") :
    pollOne qry (st, b) iid = (st, true) := by
  simp [pollOne, hmem, hq, hs, hf]

/-- One per-id poll step preserves the loop invariant. -/
theorem pollOne_inv (qry : String → QResult) (iids : List String)
    (acc : PollState × Bool) (iid : String) (hiid : iid ∈ iids)
    (h : pollInv iids acc.1) : pollInv iids (pollOne qry acc iid).1 := by
  obtain ⟨st, b⟩ := acc
  obtain ⟨hkeys, hsub, hnd⟩ := h
  by_cases hmem : iid ∈ st.startedSet
  · simpa [pollOne_skip qry st b iid hmem] using ⟨hkeys, hsub, hnd⟩
  · cases hq : qry iid with
    | exc =>
      simpa [pollOne_err qry st b iid hmem (by simp [hq, qErr])] using
        ⟨hkeys, hsub, hnd⟩
    | noState =>
      simpa [pollOne_err qry st b iid hmem (by simp [hq, qErr])] using
        ⟨hkeys, hsub, hnd⟩
    | withState s =>
      by_cases hs : s = "started"
      · subst hs
        rw [pollOne_started qry st b iid hmem hq]
        refine ⟨?_, ?_, ?_⟩
        · intro x
          rw [mem_keys_dictInsert, mem_setInsert, hkeys]
        · intro x hx
          rcases (mem_setInsert _ _ _).mp hx with hx' | rfl
          · exact hsub x hx'
          · exact hiid
        · exact nodup_keys_dictInsert _ _ _ hnd
      · by_cases hf : s = "failed"
        · subst hf
          simpa [pollOne_failed qry st b iid hmem hq] using
            ⟨hkeys, hsub, hnd⟩
        · simpa [pollOne_otherState qry st b iid s hmem hq hs hf] using
            ⟨hkeys, hsub, hnd⟩

/-- Folding per-id poll steps over any sub-list of the input ids
preserves the loop invariant. -/
theorem foldl_pollOne_inv (qry : String → QResult) (iids : List String)
    (l : List String) (hl : ∀ x ∈ l, x ∈ iids) :
    ∀ acc : PollState × Bool, pollInv iids acc.1 →
      pollInv iids (l.foldl (pollOne qry) acc).1 := by
  induction l with
  | nil => intro acc h; exact h
  | cons x xs ih =>
    intro acc h
    exact ih (fun y hy => hl y (List.mem_cons_of_mem x hy)) _
      (pollOne_inv qry iids acc x (hl x (List.mem_cons_self x xs)) h)

/-- A full poll cycle preserves the loop invariant. -/
theorem pollCycle_inv (qry : String → QResult) (iids : List String)
    (st : PollState) (h : pollInv iids st) :
    pollInv iids (pollCycle qry iids st).1 :=
  foldl_pollOne_inv qry iids iids (fun _ hx => hx) (st, false) h

/-- The poll loop preserves the loop invariant, however it ends. -/
theorem pollLoop_inv (oracle : Nat → String → QResult) (timeUp : Nat → Bool)
    (iids : List String) :
    ∀ (fuel cycle : Nat) (st : PollState), pollInv iids st →
      pollInv iids (pollLoop oracle timeUp iids fuel cycle st).st := by
  intro fuel
  induction fuel with
  | zero => intro cycle st h; exact h
  | succ n ih =>
    intro cycle st h
    have hcyc := pollCycle_inv (oracle cycle) iids st h
    simp only [pollLoop]
    split
    · exact hcyc
    · split
      · exact hcyc
      · exact ih (cycle + 1) _ hcyc

/-- An oracle whose one instance is forever in state `'failed'`. -/
def oracleAllFailed : Nat → String → QResult :=
  fun _ _ => .withState "failed"

/-- An oracle whose instances all report `'started'` at once. -/
def oracleAllStarted : Nat → String → QResult :=
  fun _ _ => .withState "started"

/-- A deadline that expires after cycle 3. -/
def timeUpAfter3 : Nat → Bool := fun c => decide (3 ≤ c)

/-- A deadline that has already expired when the loop starts. -/
def timeUpNow : Nat → Bool := fun _ => true

/-- C1 counterexample: with a single input id whose state is always
`'failed'` and a deadline that has already passed, the loop ends with an
empty `startedInstances` map, whose key set is not the input id set. -/
theorem C1_counterexample :
    ¬ (∀ iid ∈ ["a"],
        iid ∈ (pollLoop oracleAllFailed timeUpNow ["a"] 3 0
            initPollState).st.startedInstances.map Prod.fst) := by
  decide

/-- C1 (amended).  Whatever the probe results and however the loop ends
(all-started break, deadline, or still running), the key set of the
`startedInstances` map produced by the poll loop equals the set of ids
observed in state `'started'` (the started set) — duplicate-free and a
subset of the input ids; ids that never reached `'started'` are absent
from the map rather than present with a non-started marking. -/
theorem C1_started_map_keys (oracle : Nat → String → QResult)
    (timeUp : Nat → Bool) (iids : List String) (fuel : Nat) :
    (∀ x, x ∈ (pollLoop oracle timeUp iids fuel 0
          initPollState).st.startedInstances.map Prod.fst ↔
        x ∈ (pollLoop oracle timeUp iids fuel 0 initPollState).st.startedSet) ∧
    (∀ x ∈ (pollLoop oracle timeUp iids fuel 0 initPollState).st.startedSet,
      x ∈ iids) ∧
    ((pollLoop oracle timeUp iids fuel 0
        initPollState).st.startedInstances.map Prod.fst).Nodup :=
  pollLoop_inv oracle timeUp iids fuel 0 initPollState
    (by refine ⟨?_, ?_, ?_⟩ <;> simp [initPollState])

/-- C1 witness: the amended theorem applied to a run in which the single
id starts immediately, showing the id lands in the map's key set. -/
theorem C1_started_map_keys_witness :
    "a" ∈ (pollLoop oracleAllStarted timeUpNow ["a"] 3 0
        initPollState).st.startedInstances.map Prod.fst :=
  ((C1_started_map_keys oracleAllStarted timeUpNow ["a"] 3).1 "a").mpr
    (by decide)

/-- A state reported that is neither `'started'` nor `'failed'` leaves
the started set unchanged and raises the cycle flag. -/
theorem pollOne_notStarted_parts (qry : String → QResult) (st : PollState)
    (b : Bool) (iid s : String) (hmem : iid ∉ st.startedSet)
    (hq : qry iid = .withState s) (hs : s ≠ "started") :
    (pollOne qry (st, b) iid).1.startedSet = st.startedSet ∧
    (pollOne qry (st, b) iid).2 = true := by
  by_cases hf : s = "failed"
  · subst hf
    rw [pollOne_failed qry st b iid hmem hq]
    exact ⟨rfl, rfl⟩
  · rw [pollOne_otherState qry st b iid s hmem hq hs hf]
    exact ⟨rfl, rfl⟩

/-- A raised cycle flag stays raised for the rest of the cycle. -/
theorem pollOne_flag_mono (qry : String → QResult) (st : PollState)
    (iid : String) : (pollOne qry (st, true) iid).2 = true := by
  by_cases hmem : iid ∈ st.startedSet
  · simp [pollOne, hmem]
  · cases hq : qry iid <;> simp [pollOne, hmem, hq]

/-- A raised cycle flag stays raised through the rest of the fold. -/
theorem foldl_pollOne_flag_mono (qry : String → QResult) (l : List String) :
    ∀ st : PollState, (l.foldl (pollOne qry) (st, true)).2 = true := by
  induction l with
  | nil => intro st; rfl
  | cons x xs ih =>
    intro st
    have h := pollOne_flag_mono qry st x
    rcases hp : pollOne qry (st, true) x with ⟨st', b'⟩
    have hb' : b' = true := by rw [hp] at h; exact h
    subst hb'
    simp only [List.foldl_cons, hp]
    exact ih st'

/-- The started set only grows within a per-id step. -/
theorem pollOne_started_mono (qry : String → QResult)
    (acc : PollState × Bool) (iid x : String)
    (hx : x ∈ acc.1.startedSet) : x ∈ (pollOne qry acc iid).1.startedSet := by
  obtain ⟨st, b⟩ := acc
  by_cases hmem : iid ∈ st.startedSet
  · rw [pollOne_skip qry st b iid hmem]; exact hx
  · cases hq : qry iid with
    | exc => rw [pollOne_err qry st b iid hmem (by simp [hq, qErr])]; exact hx
    | noState =>
      rw [pollOne_err qry st b iid hmem (by simp [hq, qErr])]; exact hx
    | withState s =>
      by_cases hs : s = "started"
      · subst hs
        rw [pollOne_started qry st b iid hmem hq]
        exact (mem_setInsert _ _ _).mpr (Or.inl hx)
      · exact (pollOne_notStarted_parts qry st b iid s hmem hq hs).1 ▸ hx

/-- The started set only grows along a cycle's fold. -/
theorem foldl_pollOne_started_mono (qry : String → QResult)
    (l : List String) :
    ∀ (acc : PollState × Bool) (x : String), x ∈ acc.1.startedSet →
      x ∈ (l.foldl (pollOne qry) acc).1.startedSet := by
  induction l with
  | nil => intro acc x hx; exact hx
  | cons y ys ih =>
    intro acc x hx
    exact ih (pollOne qry acc y) x (pollOne_started_mono qry acc y x hx)

/-- An id enters the started set during a per-id step only if its probe
reported `'started'`. -/
theorem pollOne_mem_started (qry : String → QResult)
    (acc : PollState × Bool) (iid x : String)
    (hx : x ∈ (pollOne qry acc iid).1.startedSet) :
    x ∈ acc.1.startedSet ∨ qry x = .withState "started" := by
  obtain ⟨st, b⟩ := acc
  by_cases hmem : iid ∈ st.startedSet
  · rw [pollOne_skip qry st b iid hmem] at hx; exact Or.inl hx
  · cases hq : qry iid with
    | exc =>
      rw [pollOne_err qry st b iid hmem (by simp [hq, qErr])] at hx
      exact Or.inl hx
    | noState =>
      rw [pollOne_err qry st b iid hmem (by simp [hq, qErr])] at hx
      exact Or.inl hx
    | withState s =>
      by_cases hs : s = "started"
      · subst hs
        rw [pollOne_started qry st b iid hmem hq] at hx
        rcases (mem_setInsert _ _ _).mp hx with hx' | rfl
        · exact Or.inl hx'
        · exact Or.inr hq
      · rw [(pollOne_notStarted_parts qry st b iid s hmem hq hs).1] at hx
        exact Or.inl hx

/-- An id enters the started set during a cycle's fold only if its probe
reported `'started'`. -/
theorem foldl_pollOne_mem_started (qry : String → QResult)
    (l : List String) :
    ∀ (acc : PollState × Bool) (x : String),
      x ∈ (l.foldl (pollOne qry) acc).1.startedSet →
      x ∈ acc.1.startedSet ∨ qry x = .withState "started" := by
  induction l with
  | nil => intro acc x hx; exact Or.inl hx
  | cons y ys ih =>
    intro acc x hx
    rcases ih (pollOne qry acc y) x hx with hx' | hx'
    · exact pollOne_mem_started qry acc y x hx'
    · exact Or.inr hx'

/-- The cycle flag ends false exactly when the fold started with it false
and every folded id ends the cycle in the started set or probed with no
usable state. -/
theorem foldl_pollOne_flag_false_iff (qry : String → QResult)
    (l : List String) :
    ∀ acc : PollState × Bool,
      (l.foldl (pollOne qry) acc).2 = false ↔
        (acc.2 = false ∧ ∀ x ∈ l,
          x ∈ (l.foldl (pollOne qry) acc).1.startedSet ∨
          qErr (qry x) = true) := by
  induction l with
  | nil => intro acc; simp
  | cons y ys ih =>
    intro acc
    obtain ⟨st, b⟩ := acc
    simp only [List.foldl_cons]
    by_cases hmem : y ∈ st.startedSet
    · rw [pollOne_skip qry st b y hmem, ih (st, b)]
      constructor
      · rintro ⟨hb, hall⟩
        refine ⟨hb, fun x hx => ?_⟩
        rcases List.mem_cons.mp hx with rfl | hx'
        · exact Or.inl (foldl_pollOne_started_mono qry ys (st, b) x hmem)
        · exact hall x hx'
      · rintro ⟨hb, hall⟩
        exact ⟨hb, fun x hx => hall x (List.mem_cons_of_mem y hx)⟩
    · cases hq : qry y with
      | exc =>
        rw [pollOne_err qry st b y hmem (by simp [hq, qErr]), ih (st, b)]
        constructor
        · rintro ⟨hb, hall⟩
          refine ⟨hb, fun x hx => ?_⟩
          rcases List.mem_cons.mp hx with rfl | hx'
          · exact Or.inr (by simp [hq, qErr])
          · exact hall x hx'
        · rintro ⟨hb, hall⟩
          exact ⟨hb, fun x hx => hall x (List.mem_cons_of_mem y hx)⟩
      | noState =>
        rw [pollOne_err qry st b y hmem (by simp [hq, qErr]), ih (st, b)]
        constructor
        · rintro ⟨hb, hall⟩
          refine ⟨hb, fun x hx => ?_⟩
          rcases List.mem_cons.mp hx with rfl | hx'
          · exact Or.inr (by simp [hq, qErr])
          · exact hall x hx'
        · rintro ⟨hb, hall⟩
          exact ⟨hb, fun x hx => hall x (List.mem_cons_of_mem y hx)⟩
      | withState s =>
        by_cases hs : s = "started"
        · subst hs
          rw [pollOne_started qry st b y hmem hq,
            ih ({ st with
              startedSet := setInsert st.startedSet y,
              startedInstances :=
                dictInsert st.startedInstances y "started" }, b)]
          constructor
          · rintro ⟨hb, hall⟩
            refine ⟨hb, fun x hx => ?_⟩
            rcases List.mem_cons.mp hx with rfl | hx'
            · refine Or.inl (foldl_pollOne_started_mono qry ys _ x ?_)
              exact (mem_setInsert _ _ _).mpr (Or.inr rfl)
            · exact hall x hx'
          · rintro ⟨hb, hall⟩
            exact ⟨hb, fun x hx => hall x (List.mem_cons_of_mem y hx)⟩
        · obtain ⟨hset, hflag⟩ :=
            pollOne_notStarted_parts qry st b y s hmem hq hs
          rcases hp : pollOne qry (st, b) y with ⟨st2, b2⟩
          rw [hp] at hset hflag
          subst hflag
          constructor
          · intro hfalse
            rw [foldl_pollOne_flag_mono qry ys st2] at hfalse
            exact absurd hfalse (by simp)
          · rintro ⟨hb, hall⟩
            rcases hall y (List.mem_cons_self y ys) with hy | hy
            · rcases foldl_pollOne_mem_started qry ys (st2, true) y hy
                with h' | h'
              · rw [hset] at h'
                exact absurd h' hmem
              · rw [hq] at h'
                simp only [QResult.withState.injEq] at h'
                exact absurd h' hs
            · rw [hq] at hy
              simp [qErr] at hy

/-- If the loop ended through `if not starting: break`, every input id is
in the final started set or probed with no usable state in the final
cycle. -/
theorem pollLoop_allStarted_char (oracle : Nat → String → QResult)
    (timeUp : Nat → Bool) (iids : List String) :
    ∀ (fuel cycle : Nat) (st : PollState),
      (pollLoop oracle timeUp iids fuel cycle st).reason = .allStarted →
      ∀ x ∈ iids,
        x ∈ (pollLoop oracle timeUp iids fuel cycle st).st.startedSet ∨
        qErr (oracle
          (cycle + (pollLoop oracle timeUp iids fuel cycle st).nCycles - 1)
          x) = true := by
  intro fuel
  induction fuel with
  | zero => intro cycle st hr; exact absurd hr (by simp [pollLoop])
  | succ n ih =>
    intro cycle st hr x hx
    by_cases hflag : (pollCycle (oracle cycle) iids st).2
    · by_cases ht : timeUp cycle
      · rw [show pollLoop oracle timeUp iids (n + 1) cycle st =
            ⟨(pollCycle (oracle cycle) iids st).1, .deadline, 1⟩ from by
          simp [pollLoop, hflag, ht]] at hr
        exact absurd hr (by simp)
      · have hred : pollLoop oracle timeUp iids (n + 1) cycle st =
            ⟨(pollLoop oracle timeUp iids n (cycle + 1)
                (pollCycle (oracle cycle) iids st).1).st,
             (pollLoop oracle timeUp iids n (cycle + 1)
                (pollCycle (oracle cycle) iids st).1).reason,
             (pollLoop oracle timeUp iids n (cycle + 1)
                (pollCycle (oracle cycle) iids st).1).nCycles + 1⟩ := by
          simp [pollLoop, hflag, ht]
        rw [hred] at hr ⊢
        have := ih (cycle + 1) (pollCycle (oracle cycle) iids st).1 hr x hx
        rcases this with h' | h'
        · exact Or.inl h'
        · refine Or.inr ?_
          have harith :
              cycle + ((pollLoop oracle timeUp iids n (cycle + 1)
                (pollCycle (oracle cycle) iids st).1).nCycles + 1) - 1 =
              cycle + 1 + (pollLoop oracle timeUp iids n (cycle + 1)
                (pollCycle (oracle cycle) iids st).1).nCycles - 1 := by
            omega
          rw [harith]
          exact h'
    · have hflag' : (pollCycle (oracle cycle) iids st).2 = false := by
        simpa using hflag
      rw [show pollLoop oracle timeUp iids (n + 1) cycle st =
          ⟨(pollCycle (oracle cycle) iids st).1, .allStarted, 1⟩ from by
        simp [pollLoop, hflag']]
      have hiff := (foldl_pollOne_flag_false_iff (oracle cycle) iids
        (st, false)).mp hflag'
      simpa using hiff.2 x hx

/-- If the loop ended through the deadline check, the deadline predicate
held after the final cycle. -/
theorem pollLoop_deadline_char (oracle : Nat → String → QResult)
    (timeUp : Nat → Bool) (iids : List String) :
    ∀ (fuel cycle : Nat) (st : PollState),
      (pollLoop oracle timeUp iids fuel cycle st).reason = .deadline →
      timeUp
        (cycle + (pollLoop oracle timeUp iids fuel cycle st).nCycles - 1) =
        true := by
  intro fuel
  induction fuel with
  | zero => intro cycle st hr; exact absurd hr (by simp [pollLoop])
  | succ n ih =>
    intro cycle st hr
    by_cases hflag : (pollCycle (oracle cycle) iids st).2
    · by_cases ht : timeUp cycle
      · rw [show pollLoop oracle timeUp iids (n + 1) cycle st =
            ⟨(pollCycle (oracle cycle) iids st).1, .deadline, 1⟩ from by
          simp [pollLoop, hflag, ht]]
        simpa using ht
      · have hred : pollLoop oracle timeUp iids (n + 1) cycle st =
            ⟨(pollLoop oracle timeUp iids n (cycle + 1)
                (pollCycle (oracle cycle) iids st).1).st,
             (pollLoop oracle timeUp iids n (cycle + 1)
                (pollCycle (oracle cycle) iids st).1).reason,
             (pollLoop oracle timeUp iids n (cycle + 1)
                (pollCycle (oracle cycle) iids st).1).nCycles + 1⟩ := by
          simp [pollLoop, hflag, ht]
        rw [hred] at hr ⊢
        have harith :
            cycle + ((pollLoop oracle timeUp iids n (cycle + 1)
              (pollCycle (oracle cycle) iids st).1).nCycles + 1) - 1 =
            cycle + 1 + (pollLoop oracle timeUp iids n (cycle + 1)
              (pollCycle (oracle cycle) iids st).1).nCycles - 1 := by
          omega
        rw [harith]
        exact ih (cycle + 1) (pollCycle (oracle cycle) iids st).1 hr
    · have hflag' : (pollCycle (oracle cycle) iids st).2 = false := by
        simpa using hflag
      rw [show pollLoop oracle timeUp iids (n + 1) cycle st =
          ⟨(pollCycle (oracle cycle) iids st).1, .allStarted, 1⟩ from by
        simp [pollLoop, hflag']] at hr
      exact absurd hr (by simp)

/-- A cycle ending with a lowered flag breaks the loop at once. -/
theorem pollLoop_break_allStarted (oracle : Nat → String → QResult)
    (timeUp : Nat → Bool) (iids : List String) (fuel cycle : Nat)
    (st : PollState) (h : (pollCycle (oracle cycle) iids st).2 = false) :
    pollLoop oracle timeUp iids (fuel + 1) cycle st =
      ⟨(pollCycle (oracle cycle) iids st).1, .allStarted, 1⟩ := by
  simp [pollLoop, h]

/-- A cycle ending with the flag raised and the deadline expired breaks
the loop at once with the deadline reason. -/
theorem pollLoop_break_deadline (oracle : Nat → String → QResult)
    (timeUp : Nat → Bool) (iids : List String) (fuel cycle : Nat)
    (st : PollState) (h1 : (pollCycle (oracle cycle) iids st).2 = true)
    (h2 : timeUp cycle = true) :
    pollLoop oracle timeUp iids (fuel + 1) cycle st =
      ⟨(pollCycle (oracle cycle) iids st).1, .deadline, 1⟩ := by
  simp [pollLoop, h1, h2]

/-- C2 counterexample: one input id, probed `'failed'` every cycle (a
terminal state), with the deadline expiring after cycle 3.  The claim
requires the loop to end as soon as every id is terminal — after the
first cycle, well before the deadline.  The code instead keeps polling:
the run takes 4 cycles and ends with the `deadline` reason, not the
all-started break. -/
theorem C2_counterexample :
    (pollLoop oracleAllFailed timeUpAfter3 ["a"] 10 0
      initPollState).st.failedSet = ["a"] ∧
    (pollLoop oracleAllFailed timeUpAfter3 ["a"] 10 0
      initPollState).nCycles = 4 ∧
    (pollLoop oracleAllFailed timeUpAfter3 ["a"] 10 0
      initPollState).reason = .deadline ∧
    ¬ ((pollLoop oracleAllFailed timeUpAfter3 ["a"] 10 0
      initPollState).reason = .allStarted) := by
  decide

/-- C2 (amended).  The poll loop exits exactly when either (a) the
just-completed cycle raised no `starting` flag — equivalently, every
input id ended that cycle in the started set or probed with no usable
state (`'failed'` and `'terminated'` are *not* exit states: any state
other than `'started'` keeps the loop running) — or (b) the cycle flag
was raised and the deadline had passed.  Conjuncts: the cycle-level
characterisation of the flag; ids started-or-unprobed at an all-started
exit; the deadline predicate true at a deadline exit; and the two
immediate-break equations. -/
theorem C2_poll_loop_exit :
    (∀ (qry : String → QResult) (iids : List String) (st : PollState),
      (pollCycle qry iids st).2 = false ↔
        ∀ x ∈ iids, x ∈ (pollCycle qry iids st).1.startedSet ∨
          qErr (qry x) = true) ∧
    (∀ (oracle : Nat → String → QResult) (timeUp : Nat → Bool)
        (iids : List String) (fuel cycle : Nat) (st : PollState),
      (pollLoop oracle timeUp iids fuel cycle st).reason = .allStarted →
      ∀ x ∈ iids,
        x ∈ (pollLoop oracle timeUp iids fuel cycle st).st.startedSet ∨
        qErr (oracle
          (cycle + (pollLoop oracle timeUp iids fuel cycle st).nCycles - 1)
          x) = true) ∧
    (∀ (oracle : Nat → String → QResult) (timeUp : Nat → Bool)
        (iids : List String) (fuel cycle : Nat) (st : PollState),
      (pollLoop oracle timeUp iids fuel cycle st).reason = .deadline →
      timeUp
        (cycle + (pollLoop oracle timeUp iids fuel cycle st).nCycles - 1) =
        true) ∧
    (∀ (oracle : Nat → String → QResult) (timeUp : Nat → Bool)
        (iids : List String) (fuel cycle : Nat) (st : PollState),
      (pollCycle (oracle cycle) iids st).2 = false →
      pollLoop oracle timeUp iids (fuel + 1) cycle st =
        ⟨(pollCycle (oracle cycle) iids st).1, .allStarted, 1⟩) ∧
    (∀ (oracle : Nat → String → QResult) (timeUp : Nat → Bool)
        (iids : List String) (fuel cycle : Nat) (st : PollState),
      (pollCycle (oracle cycle) iids st).2 = true → timeUp cycle = true →
      pollLoop oracle timeUp iids (fuel + 1) cycle st =
        ⟨(pollCycle (oracle cycle) iids st).1, .deadline, 1⟩) := by
  refine ⟨?_, ?_, ?_, ?_, ?_⟩
  · intro qry iids st
    have h := foldl_pollOne_flag_false_iff qry iids (st, false)
    simpa [pollCycle] using h
  · exact pollLoop_allStarted_char
  · exact pollLoop_deadline_char
  · exact pollLoop_break_allStarted
  · exact pollLoop_break_deadline

/-- C2 witness: the all-started characterisation applied to a run whose
single id starts in the first cycle, with the exit-reason hypothesis
discharged concretely. -/
theorem C2_poll_loop_exit_witness :
    "a" ∈ (pollLoop oracleAllStarted timeUpNow ["a"] 3 0
        initPollState).st.startedSet ∨
    qErr (oracleAllStarted
      (0 + (pollLoop oracleAllStarted timeUpNow ["a"] 3 0
        initPollState).nCycles - 1) "a") = true :=
  C2_poll_loop_exit.2.1 oracleAllStarted timeUpNow ["a"] 3 0 initPollState
    (by decide) "a" (by decide)
